import Mathlib

/-!
Verification of the User-Admin-management reporting tool (`page/import_csv.py`
and `page/dashboard.py`) against its natural-language specification.

The Python source is shallowly embedded: dataframes become lists of rows of
`Value` cells, database storage becomes a list of rows, and the pandas string
and coercion operations become executable Lean functions over `List Char`.
-/

/-- Whitespace predicate modelling Python `str.strip`'s notion of whitespace
on the characters relevant to this code base: ASCII whitespace
(space, tab, LF, VT, FF, CR) and the non-breaking space U+00A0. -/
def pyIsSpace (c : Char) : Bool :=
  decide (c.toNat = 32 ∨ (9 ≤ c.toNat ∧ c.toNat ≤ 13) ∨ c.toNat = 160)

/-- ASCII lower-casing of one character, modelling Python `str.lower` on the
ASCII range used by this code base. -/
def lowerChar (c : Char) : Char :=
  if 65 ≤ c.toNat ∧ c.toNat ≤ 90 then Char.ofNat (c.toNat + 32) else c

/-- Remove leading whitespace characters (the left half of Python `strip()`). -/
def stripLeft (l : List Char) : List Char :=
  l.dropWhile pyIsSpace

/-- Remove trailing whitespace characters (the right half of Python `strip()`). -/
def stripRight : List Char → List Char
  | [] => []
  | c :: rest =>
    match stripRight rest with
    | [] => if pyIsSpace c then [] else [c]
    | r => c :: r

/-- Model of Python `str.strip()` on character lists. -/
def stripList (l : List Char) : List Char :=
  stripRight (stripLeft l)

/-- Model of Python `str.strip()` on strings. -/
def pyStrip (s : String) : String :=
  String.mk (stripList s.data)

/-- Model of the chained pandas operation `.astype(str).str.strip().str.lower()`
applied to a Unique ID cell (import_csv.py line 111); this is the normalized
form of a Unique ID. -/
def normalizeKey (s : String) : String :=
  String.mk ((stripList s.data).map lowerChar)

/-- Replace a non-breaking space by an ordinary space, the effect on one
character of `col.replace("\xa0", " ")` (import_csv.py line 67). -/
def nbspToSpace (c : Char) : Char :=
  if c.toNat = 160 then ' ' else c

/-- Model of `col.strip().replace("\xa0", " ")` for a single column name
(import_csv.py line 67). -/
def cleanCol (s : String) : String :=
  String.mk ((stripList s.data).map nbspToSpace)

/-- Model of `clean_column_names` (import_csv.py lines 66-67). -/
def clean_column_names (columns : List String) : List String :=
  columns.map cleanCol

/-- Boolean membership of a string in a list, modelling Python's `in` test on
a collection of strings. -/
def memStr (k : String) : List String → Bool
  | [] => false
  | x :: xs => (x == k) || memStr k xs

theorem memStr_iff (k : String) (l : List String) : memStr k l = true ↔ k ∈ l := by
  induction l with
  | nil => simp [memStr]
  | cons x xs ih =>
    simp [memStr, ih, Bool.or_eq_true, beq_iff_eq]
    constructor
    · rintro (h | h)
      · exact Or.inl h.symm
      · exact Or.inr h
    · rintro (h | h)
      · exact Or.inl h.symm
      · exact Or.inr h

theorem toNat_ofNat_valid (n : Nat) (h : n < 55296) : (Char.ofNat n).toNat = n := by
  have hv : n.isValidChar := Or.inl h
  rw [Char.ofNat, dif_pos hv]
  rfl

theorem toNat_lowerChar_upper {c : Char} (h : 65 ≤ c.toNat ∧ c.toNat ≤ 90) :
    (lowerChar c).toNat = c.toNat + 32 := by
  rw [lowerChar, if_pos h]
  exact toNat_ofNat_valid _ (by omega)

theorem pyIsSpace_lowerChar (c : Char) : pyIsSpace (lowerChar c) = pyIsSpace c := by
  by_cases h : 65 ≤ c.toNat ∧ c.toNat ≤ 90
  · rw [pyIsSpace, pyIsSpace, decide_eq_decide, toNat_lowerChar_upper h]
    omega
  · rw [lowerChar, if_neg h]

theorem lowerChar_lowerChar (c : Char) : lowerChar (lowerChar c) = lowerChar c := by
  by_cases h : 65 ≤ c.toNat ∧ c.toNat ≤ 90
  · have ht := toNat_lowerChar_upper h
    conv_lhs => rw [lowerChar]
    rw [if_neg (by rw [ht]; omega)]
  · have hc : lowerChar c = c := by rw [lowerChar, if_neg h]
    rw [hc, hc]

theorem stripLeft_stripLeft (l : List Char) : stripLeft (stripLeft l) = stripLeft l := by
  induction l with
  | nil => rfl
  | cons c rest ih =>
    by_cases h : pyIsSpace c
    · simp only [stripLeft, List.dropWhile_cons, h, if_true]
      exact ih
    · simp only [stripLeft, List.dropWhile_cons, h]
      simp [h]

theorem stripRight_cons (c : Char) (l : List Char) :
    stripRight (c :: l) =
      match stripRight l with
      | [] => if pyIsSpace c then [] else [c]
      | r => c :: r := rfl

theorem stripRight_stripRight (l : List Char) : stripRight (stripRight l) = stripRight l := by
  induction l with
  | nil => rfl
  | cons c rest ih =>
    cases hr : stripRight rest with
    | nil =>
      by_cases h : pyIsSpace c
      · simp [stripRight_cons, hr, h, stripRight]
      · simp [stripRight_cons, hr, h, stripRight]
    | cons d ds =>
      rw [hr] at ih
      have h1 : stripRight (c :: rest) = c :: d :: ds := by rw [stripRight_cons, hr]
      rw [h1, stripRight_cons, ih]

theorem stripLeft_of_head_not_space {c : Char} (h : pyIsSpace c = false) (l : List Char) :
    stripLeft (c :: l) = c :: l := by
  simp [stripLeft, List.dropWhile_cons, h]

theorem stripRight_cons_of_not_space {c : Char} (h : pyIsSpace c = false) (l : List Char) :
    ∃ r, stripRight (c :: l) = c :: r := by
  cases hr : stripRight l with
  | nil => exact ⟨[], by simp [stripRight, hr, h]⟩
  | cons d ds => exact ⟨d :: ds, by simp [stripRight, hr]⟩

theorem not_space_of_stripLeft_cons {l : List Char} {c : Char} {rest : List Char}
    (hy : stripLeft l = c :: rest) : pyIsSpace c = false := by
  have h1 := List.head_dropWhile_not pyIsSpace l
    (by rw [show l.dropWhile pyIsSpace = c :: rest from hy]; simp)
  simpa [show l.dropWhile pyIsSpace = c :: rest from hy] using h1

theorem stripList_stripList (l : List Char) : stripList (stripList l) = stripList l := by
  unfold stripList
  cases hy : stripLeft l with
  | nil => rfl
  | cons c rest =>
    have hc : pyIsSpace c = false := not_space_of_stripLeft_cons hy
    obtain ⟨r, hrr⟩ := stripRight_cons_of_not_space hc rest
    rw [hrr, stripLeft_of_head_not_space hc r, ← hrr, stripRight_stripRight]

theorem stripLeft_map_lowerChar (l : List Char) :
    stripLeft (l.map lowerChar) = (stripLeft l).map lowerChar := by
  unfold stripLeft
  rw [List.dropWhile_map]
  have h : (pyIsSpace ∘ lowerChar) = pyIsSpace := funext pyIsSpace_lowerChar
  rw [h]

theorem stripRight_map_lowerChar (l : List Char) :
    stripRight (l.map lowerChar) = (stripRight l).map lowerChar := by
  induction l with
  | nil => rfl
  | cons c rest ih =>
    rw [List.map_cons, stripRight_cons, ih, stripRight_cons]
    cases hr : stripRight rest with
    | nil =>
      rw [pyIsSpace_lowerChar]
      cases h : pyIsSpace c <;> simp
    | cons d ds => simp

theorem stripList_map_lowerChar (l : List Char) :
    stripList (l.map lowerChar) = (stripList l).map lowerChar := by
  unfold stripList
  rw [stripLeft_map_lowerChar, stripRight_map_lowerChar]

theorem normalizeKey_idem (s : String) : normalizeKey (normalizeKey s) = normalizeKey s := by
  unfold normalizeKey
  congr 1
  show (stripList ((stripList s.data).map lowerChar)).map lowerChar = (stripList s.data).map lowerChar
  rw [stripList_map_lowerChar, stripList_stripList, List.map_map]
  congr 1
  funext c
  exact lowerChar_lowerChar c

theorem stripRight_eq_nil_of_all_space {q : List Char} (hq : ∀ a ∈ q, pyIsSpace a = true) :
    stripRight q = [] := by
  induction q with
  | nil => rfl
  | cons c rest ih =>
    rw [stripRight_cons, ih fun a ha => hq a (List.mem_cons_of_mem c ha)]
    simp [hq c (List.mem_cons_self c rest)]

theorem stripRight_append_space {q : List Char} (hq : ∀ a ∈ q, pyIsSpace a = true)
    (x : List Char) : stripRight (x ++ q) = stripRight x := by
  induction x with
  | nil => simpa using stripRight_eq_nil_of_all_space hq
  | cons c rest ih => rw [List.cons_append, stripRight_cons, ih, stripRight_cons]

theorem stripList_append_space {p q : List Char} (hp : ∀ a ∈ p, pyIsSpace a = true)
    (hq : ∀ a ∈ q, pyIsSpace a = true) (x : List Char) :
    stripList (p ++ x ++ q) = stripList x := by
  unfold stripList
  rw [List.append_assoc]
  unfold stripLeft
  rw [List.dropWhile_append_of_pos hp]
  cases hx : (x.dropWhile pyIsSpace) with
  | nil =>
    have h1 : (x ++ q).dropWhile pyIsSpace = q.dropWhile pyIsSpace := by
      rw [List.dropWhile_append, hx]
      rfl
    have h2 : q.dropWhile pyIsSpace = [] := by
      have h3 := @List.dropWhile_append_of_pos _ pyIsSpace q [] hq
      simpa using h3
    rw [h1, h2]
  | cons c rest =>
    have h1 : (x ++ q).dropWhile pyIsSpace = c :: rest ++ q := by
      rw [List.dropWhile_append, hx]
      rfl
    rw [h1, stripRight_append_space hq]

/-- A cell value as it flows through the pipeline: missing (`NaN`/`NaT`/`None`),
a text value, or a numeric value (numeric cells are modelled exactly with
rationals, which is faithful for the decimal literals handled here). -/
inductive Value where
  | vNull : Value
  | vStr : String → Value
  | vNum : Rat → Value
deriving DecidableEq, Repr

/-- Model of Python `str(...)` applied to a cell, as done by `.astype(str)`. -/
def valueToStr : Value → String
  | Value.vNull => "nan"
  | Value.vStr s => s
  | Value.vNum q => toString q

/-- Is the character an ASCII digit. -/
def isDigitCh (c : Char) : Bool :=
  decide (48 ≤ c.toNat ∧ c.toNat ≤ 57)

/-- Numeric value of an ASCII digit character. -/
def digitVal (c : Char) : Nat :=
  c.toNat - 48

/-- Natural number denoted by a list of ASCII digit characters. -/
def natOfDigits (l : List Char) : Nat :=
  l.foldl (fun a c => 10 * a + digitVal c) 0

/-- Rational value of a parsed decimal literal: optional sign, integer part,
fractional part and number of fractional digits. -/
def ratOfParts (neg : Bool) (ip fp k : Nat) : Rat :=
  let m : Rat := (ip : Rat) + (fp : Rat) / (10 : Rat) ^ k
  if neg then -m else m

/-- Model of per-cell `pd.to_numeric(..., errors="coerce")`
(import_csv.py lines 88 and 91) on the decimal literals this pipeline
handles: optional sign, digits, optional fractional digits; anything else
is unparseable and yields `none` (pandas `NaN`). -/
def parseNumeric (s : String) : Option Rat :=
  let l := stripList s.data
  let su := match l with
    | '-' :: rest => (true, rest)
    | '+' :: rest => (false, rest)
    | l => (false, l)
  let ip := su.2.takeWhile isDigitCh
  let l2 := su.2.dropWhile isDigitCh
  match l2 with
  | [] => if ip.isEmpty then none else some (ratOfParts su.1 (natOfDigits ip) 0 0)
  | '.' :: frac =>
    if frac.all isDigitCh && !(ip.isEmpty && frac.isEmpty) then
      some (ratOfParts su.1 (natOfDigits ip) (natOfDigits frac) frac.length)
    else none
  | _ => none

/-- A parsed calendar date and time, the result of `pd.to_datetime`. -/
structure DateTime where
  year : Nat
  month : Nat
  day : Nat
  hour : Nat
  minute : Nat
  second : Nat
deriving DecidableEq, Repr

/-- Number of days in a month, with Gregorian leap years. -/
def daysInMonth (y m : Nat) : Nat :=
  if m = 2 then (if (y % 4 = 0 ∧ y % 100 ≠ 0) ∨ y % 400 = 0 then 29 else 28)
  else if m = 4 ∨ m = 6 ∨ m = 9 ∨ m = 11 then 30 else 31

/-- Do the fields form a valid calendar date/time (with a four-digit year). -/
def validDT (d : DateTime) : Bool :=
  decide (d.year ≤ 9999 ∧ 1 ≤ d.month ∧ d.month ≤ 12 ∧ 1 ≤ d.day ∧
    d.day ≤ daysInMonth d.year d.month ∧ d.hour ≤ 23 ∧ d.minute ≤ 59 ∧ d.second ≤ 59)

/-- Read a two-digit field. -/
def dt2 (a b : Char) : Option Nat :=
  if isDigitCh a && isDigitCh b then some (10 * digitVal a + digitVal b) else none

/-- Read a four-digit field. -/
def dt4 (a b c d : Char) : Option Nat :=
  if isDigitCh a && isDigitCh b && isDigitCh c && isDigitCh d then
    some (1000 * digitVal a + 100 * digitVal b + 10 * digitVal c + digitVal d)
  else none

/-- Build a `DateTime` after validating the calendar ranges. -/
def mkValidDT (y mo da hh mi ss : Nat) : Option DateTime :=
  let d : DateTime := ⟨y, mo, da, hh, mi, ss⟩
  if validDT d then some d else none

/-- Model of per-cell `pd.to_datetime(..., errors="coerce")`
(import_csv.py line 82) on the ISO-style layouts this pipeline handles:
`YYYY-MM-DD` and `YYYY-MM-DD HH:MM:SS`; anything else is unparseable
and yields `none` (pandas `NaT`). -/
def parseDatetime (s : String) : Option DateTime :=
  match stripList s.data with
  | [y1, y2, y3, y4, '-', a1, a2, '-', b1, b2] =>
    (dt4 y1 y2 y3 y4).bind fun y =>
    (dt2 a1 a2).bind fun mo =>
    (dt2 b1 b2).bind fun da =>
    mkValidDT y mo da 0 0 0
  | [y1, y2, y3, y4, '-', a1, a2, '-', b1, b2, ' ', c1, c2, ':', d1, d2, ':', e1, e2] =>
    (dt4 y1 y2 y3 y4).bind fun y =>
    (dt2 a1 a2).bind fun mo =>
    (dt2 b1 b2).bind fun da =>
    (dt2 c1 c2).bind fun hh =>
    (dt2 d1 d2).bind fun mi =>
    (dt2 e1 e2).bind fun ss =>
    mkValidDT y mo da hh mi ss
  | _ => none

/-- Character for the decimal digit `n` (callers pass `n % 10`). -/
def digitChar (n : Nat) : Char :=
  if n = 0 then '0' else if n = 1 then '1' else if n = 2 then '2' else if n = 3 then '3'
  else if n = 4 then '4' else if n = 5 then '5' else if n = 6 then '6' else if n = 7 then '7'
  else if n = 8 then '8' else '9'

/-- Two-digit zero-padded decimal rendering. -/
def pad2 (n : Nat) : List Char :=
  [digitChar (n / 10 % 10), digitChar (n % 10)]

/-- Four-digit zero-padded decimal rendering. -/
def pad4 (n : Nat) : List Char :=
  [digitChar (n / 1000 % 10), digitChar (n / 100 % 10), digitChar (n / 10 % 10),
    digitChar (n % 10)]

/-- Model of `.dt.strftime('%Y-%m-%d %H:%M:%S')` (import_csv.py line 85)
applied to one parsed date/time. -/
def formatTs (d : DateTime) : String :=
  String.mk (pad4 d.year ++ '-' :: pad2 d.month ++ '-' :: pad2 d.day ++
    ' ' :: pad2 d.hour ++ ':' :: pad2 d.minute ++ ':' :: pad2 d.second)

/-- Does a character list have the shape `YYYY-MM-DD HH:MM:SS`
(digits in the 14 digit positions, the fixed separators elsewhere). -/
def isTsShape (l : List Char) : Bool :=
  match l with
  | [y1, y2, y3, y4, s1, a1, a2, s2, b1, b2, s3, c1, c2, s4, d1, d2, s5, e1, e2] =>
    [y1, y2, y3, y4, a1, a2, b1, b2, c1, c2, d1, d2, e1, e2].all isDigitCh &&
      (s1 = '-' && s2 = '-' && s3 = ' ' && s4 = ':' && s5 = ':')
  | _ => false

/-- The semantic column types appearing in `COLUMN_DATA_TYPES`
(import_csv.py lines 18-55). -/
inductive DType where
  | dtString : DType
  | dtInt64 : DType
  | dtFloat64 : DType
  | dtDatetime : DType
deriving DecidableEq, Repr

/-- The required-columns list (import_csv.py lines 7-13). -/
def REQUIRED_COLUMNS : List String :=
  ["Timestamp", "Email Address", "OCR", "Bill Ref Code", "Track ID", "Annotation ID",
   "Document Type", "Matched Payee ID", "Payer", "Review", "Bill Lines", "Payee Name",
   "Invoice", "Invoice Date", "Invoice Due Date", "Terms", "PO", "Tax Amt", "Total Amt",
   "Currency", "Foreign Language", "Quality Analyst", "Invoice Pages", "Multiple Payees",
   "Comments", "PST to IST", "US Date", "IND Date", "IND Time", "Team", "Agent",
   "Unique ID", "Priority", "Month", "Hour", "EMEA"]

/-- The column data type mapping (import_csv.py lines 18-55). -/
def COLUMN_DATA_TYPES : List (String × DType) :=
  [("Timestamp", DType.dtDatetime), ("Email Address", DType.dtString),
   ("OCR", DType.dtString), ("Bill Ref Code", DType.dtString),
   ("Track ID", DType.dtString), ("Annotation ID", DType.dtString),
   ("Document Type", DType.dtString), ("Matched Payee ID", DType.dtString),
   ("Payer", DType.dtString), ("Review", DType.dtString),
   ("Bill Lines", DType.dtInt64), ("Payee Name", DType.dtString),
   ("Invoice", DType.dtInt64), ("Invoice Date", DType.dtString),
   ("Invoice Due Date", DType.dtString), ("Terms", DType.dtString),
   ("PO", DType.dtString), ("Tax Amt", DType.dtFloat64),
   ("Total Amt", DType.dtFloat64), ("Currency", DType.dtString),
   ("Foreign Language", DType.dtString), ("Quality Analyst", DType.dtString),
   ("Invoice Pages", DType.dtInt64), ("Multiple Payees", DType.dtString),
   ("Comments", DType.dtString), ("PST to IST", DType.dtString),
   ("US Date", DType.dtDatetime), ("IND Date", DType.dtDatetime),
   ("IND Time", DType.dtString), ("Team", DType.dtString),
   ("Agent", DType.dtString), ("Unique ID", DType.dtString),
   ("Priority", DType.dtString), ("Month", DType.dtString),
   ("Hour", DType.dtInt64), ("EMEA", DType.dtString)]

/-- Declared type of a column name, if the column is in the mapping. -/
def dtypeFor (c : String) : Option DType :=
  COLUMN_DATA_TYPES.lookup c

/-- Coercion of one cell to a declared type, the per-cell effect of the four
branches of `enforce_data_types` (import_csv.py lines 81-94).  The `Int64`
branch passes `downcast="integer"` to `pd.to_numeric`, which only changes the
storage dtype when every value is integral; the parsed per-cell value is the
same as in the `float64` branch. -/
def coerceCell (dt : DType) (v : Value) : Value :=
  match dt with
  | DType.dtDatetime =>
    match parseDatetime (valueToStr v) with
    | some d => Value.vStr (formatTs d)
    | none => Value.vNull
  | DType.dtFloat64 =>
    match parseNumeric (valueToStr v) with
    | some q => Value.vNum q
    | none => Value.vNull
  | DType.dtInt64 =>
    match parseNumeric (valueToStr v) with
    | some q => Value.vNum q
    | none => Value.vNull
  | DType.dtString => Value.vStr (pyStrip (valueToStr v))

/-- Effect of `enforce_data_types` on one cell of a named column: columns in
the mapping are coerced to their declared type, other columns are untouched. -/
def applyDtype (c : String) (v : Value) : Value :=
  match dtypeFor c with
  | some dt => coerceCell dt v
  | none => v

/-- A dataframe: named columns and rows of cells (row `i`, column `j`). -/
structure DataFrame where
  cols : List String
  rows : List (List Value)

/-- Model of `enforce_data_types` (import_csv.py lines 77-99): every column
present in `COLUMN_DATA_TYPES` is converted cell by cell according to its
declared type; each column is processed independently of the others. -/
def enforce_data_types (df : DataFrame) : DataFrame :=
  ⟨df.cols, df.rows.map fun row => (df.cols.zip row).map fun p => applyDtype p.1 p.2⟩

/-- One uploaded or stored record, decomposed as its Unique ID cell (as text)
and the cells of the remaining columns. -/
structure URow where
  uid : String
  rest : List Value
deriving DecidableEq, Repr

/-- Model of `df.drop_duplicates(subset=["Unique ID"])` (import_csv.py
line 112): keep the first row for each Unique ID value, tracking the ids
already seen. -/
def dedupKeep (seen : List String) : List URow → List URow
  | [] => []
  | r :: rs =>
    if memStr r.uid seen then dedupKeep (r.uid :: seen) rs
    else r :: dedupKeep (r.uid :: seen) rs

/-- The rows that `insert_unique_data` actually inserts: the upload with its
Unique ID column normalized, intra-upload duplicates dropped (first occurrence
kept), and rows whose normalized id is already in storage dropped
(import_csv.py lines 111-118). -/
def newRecordsOf (storage df : List URow) : List URow :=
  (dedupKeep [] (df.map fun r => URow.mk (normalizeKey r.uid) r.rest)).filter
    fun r => !(memStr r.uid (storage.map fun t => normalizeKey t.uid))

/-- Model of `insert_unique_data` (import_csv.py lines 103-125): normalize the
Unique ID column, drop intra-upload duplicates, read the existing ids from
storage (normalizing them for comparison), drop rows already present, and
insert the survivors; returns the new storage contents and the inserted count.
The early `return` on an empty `new_records` inserts nothing. -/
def insert_unique_data (storage : List URow) (df : List URow) : List URow × Nat :=
  let df1 := df.map fun r => URow.mk (normalizeKey r.uid) r.rest
  let df2 := dedupKeep [] df1
  let existing := storage.map fun t => normalizeKey t.uid
  let newRecords := df2.filter fun r => !(memStr r.uid existing)
  if newRecords.isEmpty then (storage, 0)
  else (storage ++ newRecords, newRecords.length)

/-- Count, following the spec's words, of the uploaded rows that duplicate the
normalized Unique ID of an earlier row of the same upload (the first
occurrence is not counted). -/
def specIntraDups (seen : List String) : List String → Nat
  | [] => 0
  | k :: ks => (if memStr k seen then 1 else 0) + specIntraDups (k :: seen) ks

/-- Count, following the spec's words, of the uploaded rows that are the first
occurrence of their normalized Unique ID within the upload but whose id is
already present in storage. -/
def specPreexisting (existing seen : List String) : List String → Nat
  | [] => 0
  | k :: ks =>
    (if !memStr k seen && memStr k existing then 1 else 0)
      + specPreexisting existing (k :: seen) ks

/-- Slices `df.iloc[i:i+batch_size]` of the loop in `insert_data_in_batches`
(import_csv.py lines 132-135): consecutive fixed-size batches. -/
def chunks (bs : Nat) (l : List URow) : List (List URow) :=
  if hbs : bs = 0 then []
  else if hl : l = [] then []
  else l.take bs :: chunks bs (l.drop bs)
termination_by l.length
decreasing_by
  simp only [List.length_drop]
  have h1 : 0 < l.length := List.length_pos.mpr hl
  omega

/-- Model of `row.where(pd.notna(row), None)` applied to one cell
(import_csv.py line 133): missing values are sent to storage as explicit
nulls (`None`), present values unchanged. -/
def toParamVal (v : Value) : Option Value :=
  match v with
  | Value.vNull => none
  | v => some v

/-- One insert parameter tuple: the Unique ID cell followed by the remaining
cells, each with `None` substituted for a missing value. -/
def toParams (r : URow) : List (Option Value) :=
  some (Value.vStr r.uid) :: r.rest.map toParamVal

/-- The successive `cursor.executemany` payloads of `insert_data_in_batches`
(import_csv.py lines 128-135) with batch size `bs`. -/
def batchesOf (rows : List URow) (bs : Nat) : List (List (List (Option Value))) :=
  (chunks bs rows).map fun b => b.map toParams

/-- Storage contents after the first `k` batches have been committed; each
batch is committed independently (import_csv.py line 135), so an interruption
after `k` commits leaves exactly these rows durable. -/
def committedAfter (storage : List (List (Option Value))) (rows : List URow)
    (bs k : Nat) : List (List (Option Value)) :=
  storage ++ ((batchesOf rows bs).take k).flatten

/-- The default `batch_size` of `insert_data_in_batches` (import_csv.py
line 128). -/
def DEFAULT_BATCH_SIZE : Nat := 2000

/-- Model of a full, uninterrupted run of `insert_data_in_batches`
(import_csv.py lines 128-135); callers use `DEFAULT_BATCH_SIZE` unless they
override it. -/
def insert_data_in_batches (storage : List (List (Option Value))) (rows : List URow)
    (bs : Nat) : List (List (Option Value)) :=
  storage ++ (batchesOf rows bs).flatten

/-- Extraction of the Unique ID column from a dataframe, pairing each row's
Unique ID cell (as text, as `astype(str)` does) with its remaining cells.
When the column is absent `insert_unique_data` reports an error and inserts
nothing (import_csv.py lines 107-109), modelled by an empty upload. -/
def toURows (df : DataFrame) : List URow :=
  match df.cols.findIdx? fun c => c == "Unique ID" with
  | some i => df.rows.map fun r => URow.mk (valueToStr (r.getD i Value.vNull)) (r.eraseIdx i)
  | none => []

/-- The required columns absent from the cleaned header list
(import_csv.py line 158). -/
def missingColumnsOf (cols : List String) : List String :=
  REQUIRED_COLUMNS.filter fun c => !(memStr c (clean_column_names cols))

/-- Model of the ingestion path of `import_csv_page` (import_csv.py
lines 151-176): clean the header names, fail with the list of missing
required columns if any (inserting nothing), otherwise coerce the data types
and insert the unique rows.  Returns the new storage and either the missing
column list or the inserted count. -/
def import_csv_page (storage : List URow) (df : DataFrame) :
    List URow × Except (List String) Nat :=
  let cols := clean_column_names df.cols
  let missing := REQUIRED_COLUMNS.filter fun c => !(memStr c cols)
  if missing.isEmpty then
    let df2 := enforce_data_types ⟨cols, df.rows⟩
    let res := insert_unique_data storage (toURows df2)
    (res.1, Except.ok res.2)
  else (storage, Except.error missing)

/-- One stored row as seen by the dashboard queries: its timestamp (null when
the `Timestamp` cell failed coercion) and the categorical columns the five
queries group by. -/
structure DRow where
  ts : Option Int
  ocr : Option String
  payer : Option String
  emea : Option String
  priority : Option String
  lang : Option String
deriving DecidableEq, Repr

/-- Does the row's timestamp satisfy `timestamp BETWEEN start AND end`:
SQL `BETWEEN` is inclusive on both ends, and a `NULL` timestamp never
matches. -/
def tsInRange (s e : Int) (r : DRow) : Bool :=
  match r.ts with
  | some t => decide (s ≤ t ∧ t ≤ e)
  | none => false

/-- Shape shared by the five dashboard queries (dashboard.py lines 24-62):
count grouped by one categorical column, ordered by count descending,
optionally limited. -/
structure AggQuery where
  col : DRow → Option String
  lim : Option Nat

/-- The named queries of `QUERIES` (dashboard.py lines 24-62). -/
def QUERIES : List (String × AggQuery) :=
  [("processing_tool_usage", ⟨DRow.ocr, none⟩),
   ("top_payers", ⟨DRow.payer, some 20⟩),
   ("emea_distribution", ⟨DRow.emea, none⟩),
   ("priority_distribution", ⟨DRow.priority, none⟩),
   ("top_languages", ⟨DRow.lang, some 5⟩)]

/-- Rows satisfying the query's `WHERE` clause: grouping column not `NULL`
and timestamp between the two bound parameters. -/
def matchingRows (q : AggQuery) (tbl : List DRow) (s e : Int) : List DRow :=
  tbl.filter fun r => (q.col r).isSome && tsInRange s e r

/-- First-occurrence deduplication of a list of strings (the distinct values
of the grouping column). -/
def dedupFirst (seen : List String) : List String → List String
  | [] => []
  | k :: ks =>
    if memStr k seen then dedupFirst (k :: seen) ks
    else k :: dedupFirst (k :: seen) ks

/-- Descending insertion by count, modelling `ORDER BY count DESC`. -/
def insertDesc (x : String × Nat) : List (String × Nat) → List (String × Nat)
  | [] => [x]
  | y :: ys => if y.2 < x.2 then x :: y :: ys else y :: insertDesc x ys

/-- Sort the `(group, count)` pairs by count, descending. -/
def sortDesc : List (String × Nat) → List (String × Nat)
  | [] => []
  | x :: xs => insertDesc x (sortDesc xs)

/-- Evaluation of one aggregate query: group the matching rows by the
grouping column, count each group, order by count descending and apply the
optional `LIMIT`. -/
def runQuery (q : AggQuery) (tbl : List DRow) (s e : Int) : List (String × Nat) :=
  let m := matchingRows q tbl s e
  let keys := dedupFirst [] (m.filterMap q.col)
  let pairs := keys.map fun k => (k, (m.filter fun r => q.col r == some k).length)
  let sorted := sortDesc pairs
  match q.lim with
  | some n => sorted.take n
  | none => sorted

/-- Model of `fetch_data` (dashboard.py lines 8-21): a connection failure is
an error; otherwise the query result is returned as data, an empty result
included. -/
def fetch_data (connOk : Bool) (q : AggQuery) (tbl : List DRow) (s e : Int) :
    Except String (List (String × Nat)) :=
  if connOk then Except.ok (runQuery q tbl s e)
  else Except.error "Failed to connect to the database."

theorem insert_unique_data_eq (storage df : List URow) :
    insert_unique_data storage df =
      (storage ++ newRecordsOf storage df, (newRecordsOf storage df).length) := by
  unfold insert_unique_data newRecordsOf
  cases h : ((dedupKeep [] (df.map fun r => URow.mk (normalizeKey r.uid) r.rest)).filter
      fun r => !(memStr r.uid (storage.map fun t => normalizeKey t.uid))).isEmpty
  · simp [h]
  · rw [List.isEmpty_iff] at h
    simp [h]

theorem dedup_filter_count (existing : List String) :
    ∀ (l : List URow) (seen : List String),
      ((dedupKeep seen l).filter fun r => !(memStr r.uid existing)).length
          + specIntraDups seen (l.map URow.uid)
          + specPreexisting existing seen (l.map URow.uid)
        = l.length := by
  intro l
  induction l with
  | nil => intro seen; simp [dedupKeep, specIntraDups, specPreexisting]
  | cons r rs ih =>
    intro seen
    have h1 := ih (r.uid :: seen)
    cases hm : memStr r.uid seen with
    | true =>
      simp [dedupKeep, specIntraDups, specPreexisting, hm]
      omega
    | false =>
      cases he : memStr r.uid existing with
      | true =>
        simp [dedupKeep, specIntraDups, specPreexisting, List.filter_cons, hm, he]
        omega
      | false =>
        simp [dedupKeep, specIntraDups, specPreexisting, List.filter_cons, hm, he]
        omega

theorem mem_of_mem_dedupKeep :
    ∀ (l : List URow) (seen : List String) (r : URow), r ∈ dedupKeep seen l → r ∈ l := by
  intro l
  induction l with
  | nil => intro seen r h; simp [dedupKeep] at h
  | cons x xs ih =>
    intro seen r h
    cases hm : memStr x.uid seen with
    | true =>
      rw [show dedupKeep seen (x :: xs) = dedupKeep (x.uid :: seen) xs by
        simp [dedupKeep, hm]] at h
      exact List.mem_cons_of_mem x (ih _ r h)
    | false =>
      rw [show dedupKeep seen (x :: xs) = x :: dedupKeep (x.uid :: seen) xs by
        simp [dedupKeep, hm]] at h
      rcases List.mem_cons.mp h with h | h
      · exact h ▸ List.mem_cons_self x xs
      · exact List.mem_cons_of_mem x (ih _ r h)

theorem dedupKeep_nodup :
    ∀ (l : List URow) (seen : List String),
      ((dedupKeep seen l).map URow.uid).Nodup
        ∧ ∀ r ∈ dedupKeep seen l, memStr r.uid seen = false := by
  intro l
  induction l with
  | nil => intro seen; simp [dedupKeep]
  | cons x xs ih =>
    intro seen
    obtain ⟨ihn, ihs⟩ := ih (x.uid :: seen)
    cases hm : memStr x.uid seen with
    | true =>
      rw [show dedupKeep seen (x :: xs) = dedupKeep (x.uid :: seen) xs by
        simp [dedupKeep, hm]]
      refine ⟨ihn, fun r hr => ?_⟩
      have := ihs r hr
      simp only [memStr, Bool.or_eq_false_iff] at this
      exact this.2
    | false =>
      rw [show dedupKeep seen (x :: xs) = x :: dedupKeep (x.uid :: seen) xs by
        simp [dedupKeep, hm]]
      constructor
      · rw [List.map_cons, List.nodup_cons]
        refine ⟨fun hmem => ?_, ihn⟩
        obtain ⟨r, hr, hru⟩ := List.mem_map.mp hmem
        have h2 := ihs r hr
        rw [hru] at h2
        simp [memStr] at h2
      · intro r hr
        rcases List.mem_cons.mp hr with h | h
        · exact h ▸ hm
        · have := ihs r h
          simp only [memStr, Bool.or_eq_false_iff] at this
          exact this.2

theorem uid_mem_dedupKeep :
    ∀ (l : List URow) (seen : List String) (k : String),
      k ∈ l.map URow.uid →
      memStr k seen = true ∨ k ∈ (dedupKeep seen l).map URow.uid := by
  intro l
  induction l with
  | nil => intro seen k h; simp at h
  | cons x xs ih =>
    intro seen k h
    rw [List.map_cons, List.mem_cons] at h
    cases hm : memStr x.uid seen with
    | true =>
      rw [show dedupKeep seen (x :: xs) = dedupKeep (x.uid :: seen) xs by
        simp [dedupKeep, hm]]
      rcases h with h | h
      · exact Or.inl (h ▸ hm)
      · rcases ih (x.uid :: seen) k h with hs | hs
        · simp only [memStr, Bool.or_eq_true, beq_iff_eq] at hs
          rcases hs with hs | hs
          · exact Or.inl (hs ▸ hm)
          · exact Or.inl hs
        · exact Or.inr hs
    | false =>
      rw [show dedupKeep seen (x :: xs) = x :: dedupKeep (x.uid :: seen) xs by
        simp [dedupKeep, hm]]
      rcases h with h | h
      · exact Or.inr (by rw [List.map_cons, h]; exact List.mem_cons_self _ _)
      · rcases ih (x.uid :: seen) k h with hs | hs
        · simp only [memStr, Bool.or_eq_true, beq_iff_eq] at hs
          rcases hs with hs | hs
          · exact Or.inr (by rw [List.map_cons, hs]; exact List.mem_cons_self _ _)
          · exact Or.inl hs
        · exact Or.inr (by rw [List.map_cons]; exact List.mem_cons_of_mem _ hs)

/-- C1: ingestion normalizes each row's Unique ID (trim, lowercase), drops
rows whose normalized id is already in storage, drops intra-upload duplicates
keeping the first occurrence, so that inserted = uploaded − intra-upload
duplicates − pre-existing duplicates; and if storage starts with pairwise
distinct normalized Unique IDs it still has pairwise distinct normalized
Unique IDs after ingestion. -/
theorem insert_unique_data_spec (storage upload : List URow)
    (h : (storage.map fun t => normalizeKey t.uid).Nodup) :
    ((insert_unique_data storage upload).2
        + specIntraDups [] (upload.map fun r => normalizeKey r.uid)
        + specPreexisting (storage.map fun t => normalizeKey t.uid) []
            (upload.map fun r => normalizeKey r.uid)
      = upload.length)
    ∧ (insert_unique_data storage upload).2
      = upload.length
        - specIntraDups [] (upload.map fun r => normalizeKey r.uid)
        - specPreexisting (storage.map fun t => normalizeKey t.uid) []
            (upload.map fun r => normalizeKey r.uid)
    ∧ ((insert_unique_data storage upload).1.map fun t => normalizeKey t.uid).Nodup := by
  have hins := insert_unique_data_eq storage upload
  have hsnd : (insert_unique_data storage upload).2 = (newRecordsOf storage upload).length := by
    rw [hins]
  have hfst : (insert_unique_data storage upload).1 = storage ++ newRecordsOf storage upload := by
    rw [hins]
  have hkeys : (upload.map fun r => URow.mk (normalizeKey r.uid) r.rest).map URow.uid
      = upload.map fun r => normalizeKey r.uid := by
    rw [List.map_map]
    rfl
  have hcount := dedup_filter_count (storage.map fun t => normalizeKey t.uid)
    (upload.map fun r => URow.mk (normalizeKey r.uid) r.rest) []
  rw [hkeys, List.length_map] at hcount
  have hnew : (newRecordsOf storage upload).length
      + specIntraDups [] (upload.map fun r => normalizeKey r.uid)
      + specPreexisting (storage.map fun t => normalizeKey t.uid) []
          (upload.map fun r => normalizeKey r.uid) = upload.length := hcount
  have hfix : ∀ r ∈ newRecordsOf storage upload, normalizeKey r.uid = r.uid := by
    intro r hr
    have hd : r ∈ dedupKeep [] (upload.map fun t => URow.mk (normalizeKey t.uid) t.rest) :=
      List.mem_of_mem_filter hr
    have hm := mem_of_mem_dedupKeep _ _ _ hd
    obtain ⟨o, ho, rfl⟩ := List.mem_map.mp hm
    exact normalizeKey_idem o.uid
  refine ⟨by rw [hsnd]; exact hnew, by omega, ?_⟩
  rw [hfst, List.map_append, List.nodup_append]
  refine ⟨h, ?_, ?_⟩
  · rw [List.map_congr_left hfix]
    have hsub : List.Sublist ((newRecordsOf storage upload).map URow.uid)
        ((dedupKeep [] (upload.map fun t => URow.mk (normalizeKey t.uid) t.rest)).map
          URow.uid) :=
      List.Sublist.map URow.uid (List.filter_sublist _)
    exact List.Nodup.sublist hsub (dedupKeep_nodup _ _).1
  · intro a ha hb
    obtain ⟨r, hr, hru⟩ := List.mem_map.mp hb
    rw [hfix r hr] at hru
    have hcond := (List.mem_filter.mp hr).2
    rw [Bool.not_eq_eq_eq_not, Bool.not_true] at hcond
    have : a ∈ storage.map fun t => normalizeKey t.uid := ha
    rw [← hru] at this
    rw [(memStr_iff _ _).mpr this] at hcond
    exact Bool.noConfusion hcond

theorem insert_unique_data_spec_witness :
    (([URow.mk "a" []] : List URow).map fun t => normalizeKey t.uid).Nodup ∧
      (((insert_unique_data [URow.mk "a" []]
            [URow.mk " A " [], URow.mk "b" [], URow.mk "B" []]).2
          + specIntraDups []
              (([URow.mk " A " [], URow.mk "b" [], URow.mk "B" []] :
                List URow).map fun r => normalizeKey r.uid)
          + specPreexisting
              (([URow.mk "a" []] : List URow).map fun t => normalizeKey t.uid) []
              (([URow.mk " A " [], URow.mk "b" [], URow.mk "B" []] :
                List URow).map fun r => normalizeKey r.uid)
        = ([URow.mk " A " [], URow.mk "b" [], URow.mk "B" []] : List URow).length)) :=
  ⟨by decide,
    (insert_unique_data_spec [URow.mk "a" []]
      [URow.mk " A " [], URow.mk "b" [], URow.mk "B" []] (by decide)).1⟩

/-- C3: re-ingesting the same upload a second time, with storage already
containing the result of the first ingestion, inserts zero rows. -/
theorem insert_unique_data_idempotent (storage upload : List URow) :
    (insert_unique_data (insert_unique_data storage upload).1 upload).2 = 0 := by
  rw [insert_unique_data_eq storage upload]
  rw [insert_unique_data_eq (storage ++ newRecordsOf storage upload) upload]
  simp only
  rw [List.length_eq_zero]
  unfold newRecordsOf
  rw [List.filter_eq_nil_iff]
  intro r hr
  have hm := mem_of_mem_dedupKeep _ _ _ hr
  obtain ⟨o, ho, rfl⟩ := List.mem_map.mp hm
  simp only [Bool.not_eq_true', Bool.not_eq_false]
  rw [memStr_iff, List.map_append, List.mem_append]
  cases hk : memStr (normalizeKey o.uid) (storage.map fun t => normalizeKey t.uid) with
  | true => exact Or.inl ((memStr_iff _ _).mp hk)
  | false =>
    right
    have hk' : normalizeKey o.uid
        ∈ (upload.map fun t => URow.mk (normalizeKey t.uid) t.rest).map URow.uid := by
      rw [List.map_map]
      exact List.mem_map.mpr ⟨o, ho, rfl⟩
    rcases uid_mem_dedupKeep _ [] _ hk' with hs | hs
    · simp [memStr] at hs
    · obtain ⟨r', hr', hru⟩ := List.mem_map.mp hs
      have hnew : r' ∈ newRecordsOf storage upload := by
        unfold newRecordsOf
        rw [List.mem_filter]
        refine ⟨hr', ?_⟩
        rw [hru, hk]
        rfl
      refine List.mem_map.mpr ⟨r', hnew, ?_⟩
      rw [hru]
      exact normalizeKey_idem o.uid

/-- C10: the Unique ID value actually persisted for every inserted row is the
normalized (trimmed, lowercased) form of the originally uploaded cell text,
with the row's remaining cells unchanged. -/
theorem persisted_uid_normalized (storage upload : List URow) :
    (insert_unique_data storage upload).1 = storage ++ newRecordsOf storage upload
    ∧ ∀ r ∈ newRecordsOf storage upload,
        ∃ orig ∈ upload, r.uid = normalizeKey orig.uid ∧ r.rest = orig.rest := by
  refine ⟨by rw [insert_unique_data_eq], fun r hr => ?_⟩
  have hd := List.mem_of_mem_filter hr
  have hm := mem_of_mem_dedupKeep _ _ _ hd
  obtain ⟨o, ho, rfl⟩ := List.mem_map.mp hm
  exact ⟨o, ho, rfl, rfl⟩

theorem persisted_uid_normalized_witness :
    (URow.mk "abc" [] : URow) ∈ newRecordsOf [] [URow.mk " ABC " []] ∧
      ∃ orig ∈ [URow.mk " ABC " []],
        (URow.mk "abc" [] : URow).uid = normalizeKey orig.uid ∧
          (URow.mk "abc" [] : URow).rest = orig.rest :=
  ⟨by decide,
    (persisted_uid_normalized [] [URow.mk " ABC " []]).2 (URow.mk "abc" []) (by decide)⟩

theorem memStr_false_iff (k : String) (l : List String) : memStr k l = false ↔ k ∉ l := by
  rw [← memStr_iff]
  cases memStr k l <;> simp

/-- C2: when at least one required column is absent after header
normalization, `import_csv_page` fails with exactly the list of missing
required column names, and storage is unchanged (zero rows inserted). -/
theorem import_csv_page_missing_columns (storage : List URow) (df : DataFrame)
    (h : missingColumnsOf df.cols ≠ []) :
    import_csv_page storage df = (storage, Except.error (missingColumnsOf df.cols))
    ∧ ∀ c, c ∈ missingColumnsOf df.cols ↔
        c ∈ REQUIRED_COLUMNS ∧ c ∉ clean_column_names df.cols := by
  constructor
  · unfold import_csv_page
    have he : (REQUIRED_COLUMNS.filter fun c => !(memStr c (clean_column_names df.cols))).isEmpty
        = false := by
      cases h' : (REQUIRED_COLUMNS.filter
          fun c => !(memStr c (clean_column_names df.cols))).isEmpty
      · rfl
      · rw [List.isEmpty_iff] at h'
        exact absurd h' h
    simp only [he, Bool.false_eq_true, if_false]
    rfl
  · intro c
    unfold missingColumnsOf
    rw [List.mem_filter, Bool.not_eq_eq_eq_not, Bool.not_true, memStr_false_iff]

theorem import_csv_page_missing_columns_witness :
    missingColumnsOf ["Unique ID"] ≠ [] ∧
      import_csv_page [] ⟨["Unique ID"], []⟩
        = ([], Except.error (missingColumnsOf ["Unique ID"])) :=
  ⟨by decide, (import_csv_page_missing_columns [] ⟨["Unique ID"], []⟩ (by decide)).1⟩

theorem chunks_nil (bs : Nat) : chunks bs [] = [] := by
  rw [chunks]
  split
  · rfl
  · rfl

theorem chunks_cons {bs : Nat} (hbs : bs ≠ 0) {l : List URow} (hl : l ≠ []) :
    chunks bs l = l.take bs :: chunks bs (l.drop bs) := by
  rw [chunks, dif_neg hbs, dif_neg hl]

theorem flatten_chunks (bs : Nat) (hbs : bs ≠ 0) (l : List URow) :
    (chunks bs l).flatten = l := by
  by_cases hl : l = []
  · subst hl
    rw [chunks_nil]
    rfl
  · rw [chunks_cons hbs hl, List.flatten_cons, flatten_chunks bs hbs (l.drop bs),
      List.take_append_drop]
termination_by l.length
decreasing_by
  simp only [List.length_drop]
  have h1 : 0 < l.length := List.length_pos.mpr hl
  omega

theorem flatten_take_chunks (bs : Nat) (hbs : bs ≠ 0) :
    ∀ (k : Nat) (l : List URow), ((chunks bs l).take k).flatten = l.take (bs * k) := by
  intro k
  induction k with
  | zero => intro l; simp
  | succ n ih =>
    intro l
    by_cases hl : l = []
    · subst hl
      rw [chunks_nil]
      simp
    · rw [chunks_cons hbs hl, List.take_succ_cons, List.flatten_cons, ih,
        show bs * (n + 1) = bs + bs * n by ring, List.take_add]

/-- C8: surviving rows are inserted in consecutive fixed-size batches (default
batch size 2000) with null substituted for every missing cell value; 4500
surviving rows yield exactly 3 insert round trips of sizes 2000, 2000 and 500;
since each batch commits independently, an interruption after the first 2
batches leaves exactly the first 4000 rows committed, and an uninterrupted
run persists all rows. -/
theorem insert_data_in_batches_spec (storage : List (List (Option Value)))
    (rows : List URow) (h : rows.length = 4500) :
    (batchesOf rows DEFAULT_BATCH_SIZE).map List.length = [2000, 2000, 500]
    ∧ committedAfter storage rows DEFAULT_BATCH_SIZE 2
        = storage ++ (rows.take 4000).map toParams
    ∧ insert_data_in_batches storage rows DEFAULT_BATCH_SIZE
        = storage ++ rows.map toParams
    ∧ ∀ v : Value, (v = Value.vNull → toParamVal v = none)
        ∧ (v ≠ Value.vNull → toParamVal v = some v) := by
  have hbs : (2000 : Nat) ≠ 0 := by norm_num
  have h0 : rows ≠ [] := by
    intro he
    rw [he] at h
    simp at h
  have e1 : chunks 2000 rows = rows.take 2000 :: chunks 2000 (rows.drop 2000) :=
    chunks_cons hbs h0
  have l1 : (rows.drop 2000).length = 2500 := by simp [h]
  have h1 : rows.drop 2000 ≠ [] := by
    intro he
    rw [he] at l1
    simp at l1
  have e2 : chunks 2000 (rows.drop 2000)
      = (rows.drop 2000).take 2000 :: chunks 2000 ((rows.drop 2000).drop 2000) :=
    chunks_cons hbs h1
  have l2 : ((rows.drop 2000).drop 2000).length = 500 := by simp [h]
  have h2 : (rows.drop 2000).drop 2000 ≠ [] := by
    intro he
    rw [he] at l2
    simp at l2
  have e3 : chunks 2000 ((rows.drop 2000).drop 2000)
      = ((rows.drop 2000).drop 2000).take 2000
        :: chunks 2000 (((rows.drop 2000).drop 2000).drop 2000) :=
    chunks_cons hbs h2
  have l3 : (((rows.drop 2000).drop 2000).drop 2000).length = 0 := by simp [h]
  have e4 : chunks 2000 (((rows.drop 2000).drop 2000).drop 2000) = [] := by
    rw [List.length_eq_zero.mp l3, chunks_nil]
  refine ⟨?_, ?_, ?_, ?_⟩
  · show ((chunks 2000 rows).map fun b => b.map toParams).map List.length = _
    rw [e1, e2, e3, e4]
    simp [List.length_take, h, l1, l2]
  · show storage ++ ((((chunks 2000 rows).map fun b => b.map toParams).take 2).flatten) = _
    have hmt : (((chunks 2000 rows).map fun b => b.map toParams).take 2)
        = ((chunks 2000 rows).take 2).map fun b => b.map toParams :=
      Eq.symm (List.map_take _ _ _)
    rw [hmt, ← List.map_flatten, flatten_take_chunks 2000 hbs 2 rows]
  · show storage ++ (((chunks 2000 rows).map fun b => b.map toParams).flatten) = _
    rw [← List.map_flatten, flatten_chunks 2000 hbs rows]
  · intro v
    constructor
    · intro hv
      subst hv
      rfl
    · intro hv
      cases v with
      | vNull => exact absurd rfl hv
      | vStr s => rfl
      | vNum q => rfl

theorem insert_data_in_batches_spec_witness :
    (List.replicate 4500 (URow.mk "" [])).length = 4500 ∧
      (batchesOf (List.replicate 4500 (URow.mk "" [])) DEFAULT_BATCH_SIZE).map List.length
        = [2000, 2000, 500] :=
  ⟨by rw [List.length_replicate],
    (insert_data_in_batches_spec [] (List.replicate 4500 (URow.mk "" []))
      (by rw [List.length_replicate])).1⟩

theorem cleanCol_strip_padding {p q : List Char} (hp : ∀ a ∈ p, pyIsSpace a = true)
    (hq : ∀ a ∈ q, pyIsSpace a = true) (core : List Char) :
    cleanCol (String.mk (p ++ core ++ q)) = cleanCol (String.mk core) := by
  show String.mk ((stripList (p ++ core ++ q)).map nbspToSpace)
    = String.mk ((stripList core).map nbspToSpace)
  rw [stripList_append_space hp hq]

/-- C7: header normalization strips leading and trailing whitespace and
non-breaking-space characters from every column name, so two uploaded
headers that differ only in such surrounding whitespace normalize to the
same column name. -/
theorem clean_column_names_whitespace (core p1 q1 p2 q2 : List Char)
    (hp1 : ∀ a ∈ p1, pyIsSpace a = true) (hq1 : ∀ a ∈ q1, pyIsSpace a = true)
    (hp2 : ∀ a ∈ p2, pyIsSpace a = true) (hq2 : ∀ a ∈ q2, pyIsSpace a = true) :
    clean_column_names [String.mk (p1 ++ core ++ q1)]
        = clean_column_names [String.mk core]
    ∧ cleanCol (String.mk (p1 ++ core ++ q1)) = cleanCol (String.mk (p2 ++ core ++ q2)) := by
  constructor
  · show [cleanCol (String.mk (p1 ++ core ++ q1))] = [cleanCol (String.mk core)]
    rw [cleanCol_strip_padding hp1 hq1]
  · rw [cleanCol_strip_padding hp1 hq1, cleanCol_strip_padding hp2 hq2]

theorem clean_column_names_whitespace_witness :
    (∀ a ∈ [' '], pyIsSpace a = true) ∧ (∀ a ∈ [Char.ofNat 160], pyIsSpace a = true) ∧
      clean_column_names [String.mk ([' '] ++ ['T', 'e', 'a', 'm'] ++ [Char.ofNat 160])]
          = clean_column_names [String.mk ['T', 'e', 'a', 'm']]
      ∧ cleanCol (String.mk ([' '] ++ ['T', 'e', 'a', 'm'] ++ [Char.ofNat 160]))
          = cleanCol (String.mk (([] : List Char) ++ ['T', 'e', 'a', 'm'] ++ [])) :=
  ⟨by decide, by decide,
    clean_column_names_whitespace ['T', 'e', 'a', 'm'] [' '] [Char.ofNat 160] [] []
      (by decide) (by decide) (by decide) (by decide)⟩

theorem mem_insertDesc (x a : String × Nat) :
    ∀ l : List (String × Nat), a ∈ insertDesc x l ↔ a = x ∨ a ∈ l := by
  intro l
  induction l with
  | nil => simp [insertDesc]
  | cons y ys ih =>
    unfold insertDesc
    by_cases h : y.2 < x.2
    · simp [h, List.mem_cons]
    · simp [h, List.mem_cons, ih]
      tauto

theorem mem_sortDesc (a : String × Nat) :
    ∀ l : List (String × Nat), a ∈ sortDesc l ↔ a ∈ l := by
  intro l
  induction l with
  | nil => simp [sortDesc]
  | cons x xs ih =>
    unfold sortDesc
    rw [mem_insertDesc, ih, List.mem_cons]

/-- C9: every dashboard query counts only rows whose timestamp lies within
the inclusive range given by the two parameters (each returned group count
equals the number of in-range rows carrying that group value), and when no
row matches, the fetch returns an empty result as data, not an error. -/
theorem dashboard_query_range_spec (name : String) (q : AggQuery)
    (hq : (name, q) ∈ QUERIES) (tbl : List DRow) (s e : Int) :
    (∀ k c, (k, c) ∈ runQuery q tbl s e →
        c = (tbl.filter fun r => (q.col r == some k) && tsInRange s e r).length)
    ∧ ((∀ r ∈ tbl, tsInRange s e r = false) →
        fetch_data true q tbl s e = Except.ok []) := by
  constructor
  · intro k c hkc
    have hpairs : (k, c) ∈ (dedupFirst [] ((matchingRows q tbl s e).filterMap q.col)).map
        fun k => (k, ((matchingRows q tbl s e).filter fun r => q.col r == some k).length) := by
      unfold runQuery at hkc
      cases hl : q.lim with
      | none =>
        rw [hl] at hkc
        exact (mem_sortDesc _ _).mp hkc
      | some n =>
        rw [hl] at hkc
        exact (mem_sortDesc _ _).mp (List.take_subset n _ hkc)
    obtain ⟨k', hk', hkk⟩ := List.mem_map.mp hpairs
    have hk1 : k' = k := congrArg Prod.fst hkk
    have hk2 : ((matchingRows q tbl s e).filter fun r => q.col r == some k').length = c :=
      congrArg Prod.snd hkk
    rw [← hk2, hk1]
    unfold matchingRows
    rw [List.filter_filter]
    refine congrArg List.length (List.filter_congr fun r hr => ?_)
    cases hc : q.col r == some k with
    | false => simp [hc]
    | true =>
      have : (q.col r).isSome = true := by
        rw [show q.col r = some k from by simpa using hc]
        rfl
      simp [hc, this]
  · intro hnone
    unfold fetch_data
    rw [if_pos rfl]
    have hm : matchingRows q tbl s e = [] := by
      unfold matchingRows
      rw [List.filter_eq_nil_iff]
      intro r hr
      rw [hnone r hr]
      simp
    unfold runQuery
    rw [hm]
    cases q.lim <;> simp [sortDesc, dedupFirst]

theorem dashboard_query_range_spec_witness :
    ("processing_tool_usage", (⟨DRow.ocr, none⟩ : AggQuery)) ∈ QUERIES ∧
      (("X", 3) ∈ runQuery ⟨DRow.ocr, none⟩
          [⟨some 1, some "X", none, none, none, none⟩,
           ⟨some 5, some "X", none, none, none, none⟩,
           ⟨some 10, some "X", none, none, none, none⟩,
           ⟨some 11, some "X", none, none, none, none⟩,
           ⟨none, some "X", none, none, none, none⟩] 0 10 →
        3 = (([⟨some 1, some "X", none, none, none, none⟩,
           ⟨some 5, some "X", none, none, none, none⟩,
           ⟨some 10, some "X", none, none, none, none⟩,
           ⟨some 11, some "X", none, none, none, none⟩,
           ⟨none, some "X", none, none, none, none⟩] : List DRow).filter
            fun r => ((⟨DRow.ocr, none⟩ : AggQuery).col r == some "X")
              && tsInRange 0 10 r).length) :=
  ⟨List.mem_cons_self _ _,
    (dashboard_query_range_spec "processing_tool_usage" ⟨DRow.ocr, none⟩
      (List.mem_cons_self _ _)
      [⟨some 1, some "X", none, none, none, none⟩,
       ⟨some 5, some "X", none, none, none, none⟩,
       ⟨some 10, some "X", none, none, none, none⟩,
       ⟨some 11, some "X", none, none, none, none⟩,
       ⟨none, some "X", none, none, none, none⟩] 0 10).1 "X" 3⟩

/-- C4 counterexample: in the integer-typed column `Bill Lines`, the cell
`"12.5"` is neither parsed as a whole number nor turned into null:
`pd.to_numeric(..., downcast="integer")` keeps the fractional value 12.5,
so an integer column can store a non-integral value. -/
theorem int64_fractional_kept_not_null :
    dtypeFor "Bill Lines" = some DType.dtInt64
    ∧ coerceCell DType.dtInt64 (Value.vStr "12.5") = Value.vNum (ratOfParts false 12 5 1)
    ∧ ratOfParts false 12 5 1 = 25 / 2
    ∧ (¬ ∃ n : ℤ, (25 / 2 : ℚ) = (n : ℚ))
    ∧ coerceCell DType.dtInt64 (Value.vStr "12.5") ≠ Value.vNull := by
  refine ⟨rfl, rfl, by norm_num [ratOfParts], ?_, ?_⟩
  · rintro ⟨n, hn⟩
    have h2 : (25 : ℚ) = (n : ℚ) * 2 := by
      rw [← hn]
      ring
    have h3 : (25 : ℤ) = n * 2 := by exact_mod_cast h2
    omega
  · rw [show coerceCell DType.dtInt64 (Value.vStr "12.5")
        = Value.vNum (ratOfParts false 12 5 1) from rfl]
    simp

/-- C4 (amended): integer-typed columns use the same per-cell numeric
coercion as decimal columns: every unparseable cell becomes null, and every
parseable cell keeps its parsed numeric value; `downcast="integer"` only
changes the column dtype when all values are integral, so fractional values
are stored unchanged rather than nulled or truncated. -/
theorem int64_numeric_coercion (s : String) :
    (parseNumeric s = none → coerceCell DType.dtInt64 (Value.vStr s) = Value.vNull)
    ∧ (∀ q : Rat, parseNumeric s = some q →
        coerceCell DType.dtInt64 (Value.vStr s) = Value.vNum q)
    ∧ coerceCell DType.dtInt64 (Value.vStr s) = coerceCell DType.dtFloat64 (Value.vStr s) := by
  refine ⟨fun h => ?_, fun q h => ?_, ?_⟩
  · simp [coerceCell, valueToStr, h]
  · simp [coerceCell, valueToStr, h]
  · cases h : parseNumeric s <;> simp [coerceCell, valueToStr, h]

theorem int64_numeric_coercion_witness :
    parseNumeric "abc" = none
    ∧ coerceCell DType.dtInt64 (Value.vStr "abc") = Value.vNull :=
  ⟨rfl, (int64_numeric_coercion "abc").1 rfl⟩

theorem getElem?_zip {α β : Type} (l₁ : List α) (l₂ : List β) (j : Nat) (a : α) (b : β)
    (h₁ : l₁[j]? = some a) (h₂ : l₂[j]? = some b) : (l₁.zip l₂)[j]? = some (a, b) := by
  induction l₁ generalizing l₂ j with
  | nil => simp at h₁
  | cons x xs ih =>
    cases l₂ with
    | nil => simp at h₂
    | cons y ys =>
      cases j with
      | zero =>
        simp only [List.zip_cons_cons, List.getElem?_cons_zero, Option.some.injEq] at *
        rw [h₁, h₂]
      | succ n =>
        simp only [List.zip_cons_cons, List.getElem?_cons_succ] at *
        exact ih ys n h₁ h₂

/-- C5: `enforce_data_types` acts independently on every cell (the result of
cell (i, j) depends only on that cell and its column's declared type, so one
bad cell never aborts other columns or rows); moreover a timestamp cell
`"not-a-date"` coerces to null, a decimal cell `"12.5"` coerces to the
numeric value 12.5, and a decimal cell `"abc"` coerces to null. -/
theorem enforce_data_types_cellwise :
    (∀ (cols : List String) (rows : List (List Value)) (i j : Nat) (c : String)
        (v : Value) (row : List Value),
        rows[i]? = some row → cols[j]? = some c → row[j]? = some v →
        ∃ row', (enforce_data_types ⟨cols, rows⟩).rows[i]? = some row'
          ∧ row'[j]? = some (applyDtype c v))
    ∧ coerceCell DType.dtDatetime (Value.vStr "not-a-date") = Value.vNull
    ∧ coerceCell DType.dtFloat64 (Value.vStr "12.5") = Value.vNum (25 / 2)
    ∧ coerceCell DType.dtFloat64 (Value.vStr "abc") = Value.vNull := by
  refine ⟨?_, rfl, ?_, rfl⟩
  · intro cols rows i j c v row hi hj hv
    refine ⟨(cols.zip row).map fun p => applyDtype p.1 p.2, ?_, ?_⟩
    · show (rows.map fun row => (cols.zip row).map fun p => applyDtype p.1 p.2)[i]?
        = some ((cols.zip row).map fun p => applyDtype p.1 p.2)
      rw [List.getElem?_map, hi]
      rfl
    · rw [List.getElem?_map, getElem?_zip cols row j c v hj hv]
      rfl
  · have h : parseNumeric "12.5" = some (ratOfParts false 12 5 1) := rfl
    show (match parseNumeric (valueToStr (Value.vStr "12.5")) with
      | some q => Value.vNum q
      | none => Value.vNull) = Value.vNum (25 / 2)
    rw [show valueToStr (Value.vStr "12.5") = "12.5" from rfl, h]
    norm_num [ratOfParts]

theorem enforce_data_types_cellwise_witness :
    ([[Value.vStr "x"]] : List (List Value))[0]? = some [Value.vStr "x"]
    ∧ (["Hour"] : List String)[0]? = some "Hour"
    ∧ ([Value.vStr "x"] : List Value)[0]? = some (Value.vStr "x")
    ∧ ∃ row', (enforce_data_types ⟨["Hour"], [[Value.vStr "x"]]⟩).rows[0]? = some row'
        ∧ row'[0]? = some (applyDtype "Hour" (Value.vStr "x")) :=
  ⟨rfl, rfl, rfl,
    enforce_data_types_cellwise.1 ["Hour"] [[Value.vStr "x"]] 0 0 "Hour"
      (Value.vStr "x") [Value.vStr "x"] rfl rfl rfl⟩

theorem isDigitCh_digitChar (n : Nat) : isDigitCh (digitChar n) = true := by
  unfold digitChar
  repeat' split
  all_goals decide

theorem pyIsSpace_digitChar (n : Nat) : pyIsSpace (digitChar n) = false := by
  unfold digitChar
  repeat' split
  all_goals decide

theorem digitVal_digitChar (n : Nat) (h : n < 10) : digitVal (digitChar n) = n := by
  interval_cases n <;> decide

theorem formatTs_data (d : DateTime) :
    (formatTs d).data =
      [digitChar (d.year / 1000 % 10), digitChar (d.year / 100 % 10),
       digitChar (d.year / 10 % 10), digitChar (d.year % 10), '-',
       digitChar (d.month / 10 % 10), digitChar (d.month % 10), '-',
       digitChar (d.day / 10 % 10), digitChar (d.day % 10), ' ',
       digitChar (d.hour / 10 % 10), digitChar (d.hour % 10), ':',
       digitChar (d.minute / 10 % 10), digitChar (d.minute % 10), ':',
       digitChar (d.second / 10 % 10), digitChar (d.second % 10)] := rfl

theorem isTsShape_formatTs (d : DateTime) : isTsShape (formatTs d).data = true := by
  rw [formatTs_data]
  simp [isTsShape, isDigitCh_digitChar]

theorem stripList_formatTs (d : DateTime) :
    stripList (formatTs d).data = (formatTs d).data := by
  rw [formatTs_data]
  show stripRight (stripLeft _) = _
  rw [stripLeft_of_head_not_space (pyIsSpace_digitChar _)]
  simp [stripRight_cons, pyIsSpace_digitChar, stripRight]

theorem validDT_of_mk {y mo da hh mi ss : Nat} {d : DateTime}
    (h : mkValidDT y mo da hh mi ss = some d) : validDT d = true := by
  simp only [mkValidDT] at h
  split at h
  · rename_i hv
    cases h
    exact hv
  · exact absurd h (by simp)

theorem validDT_of_parse {s : String} {d : DateTime} (h : parseDatetime s = some d) :
    validDT d = true := by
  unfold parseDatetime at h
  split at h
  · simp only [Option.bind_eq_some] at h
    obtain ⟨y, hy, h⟩ := h
    obtain ⟨mo, hmo, h⟩ := h
    obtain ⟨da, hda, h⟩ := h
    exact validDT_of_mk h
  · simp only [Option.bind_eq_some] at h
    obtain ⟨y, hy, h⟩ := h
    obtain ⟨mo, hmo, h⟩ := h
    obtain ⟨da, hda, h⟩ := h
    obtain ⟨hh, hhh, h⟩ := h
    obtain ⟨mi, hmi, h⟩ := h
    obtain ⟨ss, hss, h⟩ := h
    exact validDT_of_mk h
  · exact absurd h (by simp)

theorem dt4_digits (n : Nat) (h : n ≤ 9999) :
    dt4 (digitChar (n / 1000 % 10)) (digitChar (n / 100 % 10))
      (digitChar (n / 10 % 10)) (digitChar (n % 10)) = some n := by
  unfold dt4
  have hc : (isDigitCh (digitChar (n / 1000 % 10)) && isDigitCh (digitChar (n / 100 % 10))
      && isDigitCh (digitChar (n / 10 % 10)) && isDigitCh (digitChar (n % 10))) = true := by
    rw [isDigitCh_digitChar, isDigitCh_digitChar, isDigitCh_digitChar, isDigitCh_digitChar]
    rfl
  rw [if_pos hc]
  rw [digitVal_digitChar _ (Nat.mod_lt _ (by norm_num)),
    digitVal_digitChar _ (Nat.mod_lt _ (by norm_num)),
    digitVal_digitChar _ (Nat.mod_lt _ (by norm_num)),
    digitVal_digitChar _ (Nat.mod_lt _ (by norm_num))]
  congr 1
  omega

theorem dt2_digits (n : Nat) (h : n ≤ 99) :
    dt2 (digitChar (n / 10 % 10)) (digitChar (n % 10)) = some n := by
  unfold dt2
  have hc : (isDigitCh (digitChar (n / 10 % 10)) && isDigitCh (digitChar (n % 10))) = true := by
    rw [isDigitCh_digitChar, isDigitCh_digitChar]
    rfl
  rw [if_pos hc]
  rw [digitVal_digitChar _ (Nat.mod_lt _ (by norm_num)),
    digitVal_digitChar _ (Nat.mod_lt _ (by norm_num))]
  congr 1
  omega

theorem parseDatetime_formatTs {d : DateTime} (h : validDT d = true) :
    parseDatetime (formatTs d) = some d := by
  have hb : d.year ≤ 9999 ∧ 1 ≤ d.month ∧ d.month ≤ 12 ∧ 1 ≤ d.day ∧
      d.day ≤ daysInMonth d.year d.month ∧ d.hour ≤ 23 ∧ d.minute ≤ 59 ∧ d.second ≤ 59 := by
    simpa [validDT] using h
  unfold parseDatetime
  rw [stripList_formatTs, formatTs_data]
  show (dt4 (digitChar (d.year / 1000 % 10)) (digitChar (d.year / 100 % 10))
        (digitChar (d.year / 10 % 10)) (digitChar (d.year % 10))).bind _ = some d
  rw [dt4_digits d.year hb.1]
  show (dt2 (digitChar (d.month / 10 % 10)) (digitChar (d.month % 10))).bind _ = some d
  rw [dt2_digits d.month (by omega)]
  show (dt2 (digitChar (d.day / 10 % 10)) (digitChar (d.day % 10))).bind _ = some d
  rw [dt2_digits d.day (by
    have hd : daysInMonth d.year d.month ≤ 31 := by
      unfold daysInMonth
      repeat' split
      all_goals omega
    omega)]
  show (dt2 (digitChar (d.hour / 10 % 10)) (digitChar (d.hour % 10))).bind _ = some d
  rw [dt2_digits d.hour (by omega)]
  show (dt2 (digitChar (d.minute / 10 % 10)) (digitChar (d.minute % 10))).bind _ = some d
  rw [dt2_digits d.minute (by omega)]
  show (dt2 (digitChar (d.second / 10 % 10)) (digitChar (d.second % 10))).bind _ = some d
  rw [dt2_digits d.second (by omega)]
  show mkValidDT d.year d.month d.day d.hour d.minute d.second = some d
  unfold mkValidDT
  rw [if_pos h]

/-- C6: every timestamp cell that parses is stored as the
`YYYY-MM-DD HH:MM:SS` textual representation of the parsed date/time (the
rendered text has exactly that shape and parses back to the same date/time),
and every unparseable timestamp cell is stored as null. -/
theorem timestamp_coercion_spec (cell : String) :
    (parseDatetime cell = none →
        coerceCell DType.dtDatetime (Value.vStr cell) = Value.vNull)
    ∧ ∀ d : DateTime, parseDatetime cell = some d →
        coerceCell DType.dtDatetime (Value.vStr cell) = Value.vStr (formatTs d)
        ∧ isTsShape (formatTs d).data = true
        ∧ parseDatetime (formatTs d) = some d := by
  refine ⟨fun h => by simp [coerceCell, valueToStr, h], fun d hd => ?_⟩
  exact ⟨by simp [coerceCell, valueToStr, hd], isTsShape_formatTs d,
    parseDatetime_formatTs (validDT_of_parse hd)⟩

theorem timestamp_coercion_spec_witness :
    parseDatetime "2024-01-02" = some ⟨2024, 1, 2, 0, 0, 0⟩
    ∧ (coerceCell DType.dtDatetime (Value.vStr "2024-01-02")
          = Value.vStr (formatTs ⟨2024, 1, 2, 0, 0, 0⟩)
        ∧ isTsShape (formatTs ⟨2024, 1, 2, 0, 0, 0⟩).data = true
        ∧ parseDatetime (formatTs ⟨2024, 1, 2, 0, 0, 0⟩) = some ⟨2024, 1, 2, 0, 0, 0⟩) :=
  ⟨rfl, (timestamp_coercion_spec "2024-01-02").2 ⟨2024, 1, 2, 0, 0, 0⟩ rfl⟩
